import Mathlib

/-!
Verification development for the Privacy-Distro funding-and-relay
orchestration engine.  The definitions below are a shallow embedding of
the TypeScript source: the Next.js API route (deposit / withdraw /
balance handlers backed by the PrivacyCash relay client) and the
browser-side orchestration in the main page component (funding transfer
construction, solvency check, settlement polling, payout batch
processing and tracked-balance updates).

Amounts are modelled as exact rationals (a JavaScript number used by the
source is a finite double; the source never relies on floating-point
rounding beyond Math.round, which we model exactly on rationals), with
lamport amounts as integers.  Asynchronous external collaborators (the
relay client, the wallet provider, the RPC connection) are modelled as
explicit environments of responses, and each handler returns both its
result and the trace of external calls it performed, so that temporal
claims about call ordering can be stated.
-/

/-- A JavaScript runtime value as far as the numeric validation in the
source can distinguish it: a finite number, one of the non-finite
numbers, or a non-number value. -/
inductive JsVal where
  | num (q : ℚ)
  | nan
  | inf
  | negInf
  | other
deriving DecidableEq

/-- Extract the rational payload of a finite JS number (0 otherwise;
only used behind a `validateLamports` guard, mirroring the source). -/
def JsVal.toQ : JsVal → ℚ
  | .num q => q
  | _ => 0

/-- Source `validateLamports` (API route): the value is a finite number
strictly greater than zero. -/
def validateLamports : JsVal → Bool
  | .num q => decide (0 < q)
  | _ => false

/-- JavaScript `Math.round`: round half toward positive infinity,
`Math.round x = ⌊x + 1/2⌋`.  Written as euclidean integer division on
the reduced numerator and denominator so that the kernel can evaluate
it; `jsRound_eq_floor` below proves it equals `⌊q + 1/2⌋`. -/
def jsRound (q : ℚ) : ℤ := (2 * q.num + (q.den : ℤ)) / (2 * (q.den : ℤ))

/-- Solana lamports per SOL, as used by the page component. -/
def LAMPORTS_PER_SOL : ℚ := 1000000000

/-- Source constant `FEE_BUFFER_LAMPORTS` in the page component. -/
def FEE_BUFFER_LAMPORTS : ℤ := 6900000

/-- One payout entry of a withdraw request body (`{ address; lamports }`);
an absent or falsy address is modelled as the empty string. -/
structure Payout where
  address : String
  lamports : JsVal
deriving DecidableEq

/-- Relay client response to `client.withdraw`. -/
structure WithdrawOk where
  tx : String
  recipient : String
  amount_in_lamports : ℤ
  fee_in_lamports : ℤ
  isPartial : Bool
deriving DecidableEq

/-- One item of the API withdraw response, as built by `handleWithdraw`. -/
structure WithdrawItem where
  tx : String
  recipient : String
  lamports : ℤ
  feeLamports : ℤ
  isPartial : Bool
deriving DecidableEq

/-- Relay client response to `client.deposit`. -/
structure DepositOk where
  tx : String
deriving DecidableEq

/-- API deposit response `{ tx; balanceLamports }`. -/
structure DepositResponse where
  tx : String
  balanceLamports : ℤ
deriving DecidableEq

/-- API withdraw response `{ items; balanceLamports }`. -/
structure WithdrawResponse where
  items : List WithdrawItem
  balanceLamports : ℤ
deriving DecidableEq

/-- A call made by an API handler on the relay client. -/
inductive RelayCall where
  | clearCache
  | deposit (lamports : ℤ)
  | withdraw (lamports : ℤ) (recipient : String)
  | getPrivateBalance
deriving DecidableEq

/-- The relay client as an oracle of responses.  Withdraw responses may
depend on the position of the call within the batch (the source calls
the relay sequentially, so a position index captures any history
dependence). -/
structure Relay where
  depositResp : ℤ → Except String DepositOk
  withdrawResp : ℕ → String → ℤ → Except String WithdrawOk
  balanceResp : Except String ℤ

/-- Request body of a deposit action. -/
structure DepositBody where
  rpcUrl : String
  owner : String
  lamports : JsVal

/-- Request body of a withdraw action. -/
structure WithdrawBody where
  rpcUrl : String
  owner : String
  payouts : List Payout

/-- Request body of a balance action. -/
structure BalanceBody where
  rpcUrl : String
  owner : String

deriving instance DecidableEq for Except

/-- Whether an `Except` result is an error. -/
def isErr : Except String α → Bool
  | .error _ => true
  | .ok _ => false

/-- Conversion of a relay withdraw response into a result item, exactly
the object literal pushed onto `items` in `handleWithdraw`. -/
def mkItem (r : WithdrawOk) : WithdrawItem :=
  { tx := r.tx, recipient := r.recipient, lamports := r.amount_in_lamports,
    feeLamports := r.fee_in_lamports, isPartial := r.isPartial }

/-- The `for (const entry of body.payouts)` loop of `handleWithdraw`:
validates each entry just before its own relay call, aborts (throws) on
the first invalid entry or relay failure, and returns the items list on
success, together with the trace of relay calls made. -/
def runWithdrawLoop (relay : Relay) : ℕ → List Payout →
    Except String (List WithdrawItem) × List RelayCall
  | _, [] => (.ok [], [])
  | idx, entry :: rest =>
    if entry.address = "" then
      (.error "Each payout must include an address.", [])
    else if validateLamports entry.lamports = false then
      (.error ("Withdrawal amount for " ++ entry.address ++ " must be greater than zero."), [])
    else
      let amt := jsRound entry.lamports.toQ
      match relay.withdrawResp idx entry.address amt with
      | .error e => (.error e, [.withdraw amt entry.address])
      | .ok r =>
        let next := runWithdrawLoop relay (idx + 1) rest
        (next.1.map (fun items => mkItem r :: items), .withdraw amt entry.address :: next.2)

/-- Source `createClient` precondition: throws when `rpcUrl` or `owner`
is falsy. -/
def missingCreds (rpcUrl owner : String) : Bool :=
  rpcUrl = "" || owner = ""

/-- Source `handleWithdraw` (API route): empty-batch check, client
construction, a single `clearCache`, the sequential withdraw loop, and a
final private-balance fetch.  Returns the result together with the full
trace of relay calls. -/
def handleWithdraw (relay : Relay) (body : WithdrawBody) :
    Except String WithdrawResponse × List RelayCall :=
  if body.payouts.isEmpty then
    (.error "Provide at least one payout.", [])
  else if missingCreds body.rpcUrl body.owner then
    (.error "Missing rpcUrl or owner secret.", [])
  else
    let loop := runWithdrawLoop relay 0 body.payouts
    match loop.1 with
    | .error e => (.error e, .clearCache :: loop.2)
    | .ok items =>
      match relay.balanceResp with
      | .error e => (.error e, .clearCache :: loop.2 ++ [.getPrivateBalance])
      | .ok b =>
        (.ok { items := items, balanceLamports := b },
         .clearCache :: loop.2 ++ [.getPrivateBalance])

/-- Source `handleDeposit` (API route): lamports validation, client
construction, a single `clearCache`, the relay deposit with the rounded
amount, and a final private-balance fetch. -/
def handleDepositApi (relay : Relay) (body : DepositBody) :
    Except String DepositResponse × List RelayCall :=
  if validateLamports body.lamports = false then
    (.error "Deposit lamports must be greater than zero.", [])
  else if missingCreds body.rpcUrl body.owner then
    (.error "Missing rpcUrl or owner secret.", [])
  else
    let amt := jsRound body.lamports.toQ
    match relay.depositResp amt with
    | .error e => (.error e, [.clearCache, .deposit amt])
    | .ok r =>
      match relay.balanceResp with
      | .error e => (.error e, [.clearCache, .deposit amt, .getPrivateBalance])
      | .ok b =>
        (.ok { tx := r.tx, balanceLamports := b },
         [.clearCache, .deposit amt, .getPrivateBalance])

/-- Source `handleBalance` (API route). -/
def handleBalanceApi (relay : Relay) (body : BalanceBody) :
    Except String ℤ × List RelayCall :=
  if missingCreds body.rpcUrl body.owner then
    (.error "Missing rpcUrl or owner secret.", [])
  else
    match relay.balanceResp with
    | .error e => (.error e, [.clearCache, .getPrivateBalance])
    | .ok b => (.ok b, [.clearCache, .getPrivateBalance])

/-- Source expression `Math.round(amount * LAMPORTS_PER_SOL)` (page
component), written over the numerator and denominator of the SOL
amount so that the kernel can evaluate it; `solToLamports_eq` below
proves it equals `jsRound (q * LAMPORTS_PER_SOL)`. -/
def solToLamports (q : ℚ) : ℤ :=
  (2 * q.num * 1000000000 + (q.den : ℤ)) / (2 * (q.den : ℤ))

/-- Lower-cased character list of a string, for the case-insensitive
regular-expression tests (`/.../i`) of the source. -/
def lcList (s : String) : List Char := s.toList.map Char.toLower

/-- Whether `pat` occurs as a contiguous sublist of `s`. -/
def listInfixOf (pat : List Char) : List Char → Bool
  | [] => pat.isEmpty
  | c :: rest => pat.isPrefixOf (c :: rest) || listInfixOf pat rest

/-- Case-insensitive substring test: the semantics of testing a string
against a regular expression that is a literal with the `i` flag. -/
def containsCI (pat s : String) : Bool := listInfixOf (lcList pat) (lcList s)

/-- The literal of the first regex in the deposit error classifier. -/
def priorCreditPat : String :=
  "Attempt to debit an account but found no record of a prior credit"

/-- The literal of the second regex in the deposit error classifier. -/
def insufficientLamportsPat : String := "insufficient lamports"

/-- User message shown for the relay-not-yet-synced condition. -/
def priorCreditUserMsg : String :=
  "Relayer could not see the funding transfer yet. Wait a few seconds and try again."

/-- User message shown for the ledger-level insufficient-funds condition. -/
def insufficientUserMsg : String :=
  "Not enough SOL was available for the transfer. Top up your Phantom wallet and try again."

/-- The error translation in the catch block of the page component's
`handleDeposit`: classify the caught message by case-insensitive
substring, falling through to the verbatim message. -/
def classifyDepositError (msg : String) : String :=
  if containsCI priorCreditPat msg then priorCreditUserMsg
  else if containsCI insufficientLamportsPat msg then insufficientUserMsg
  else msg

/-- One external effect of the page component's `handleDeposit` after
local validation has passed. -/
inductive DepositEffect where
  | signAndSend (transferLamports : ℤ)
  | pollBalance (attempt : ℕ)
  | sleep (ms : ℕ)
  | warnUnsettled
  | apiDeposit (lamports : ℤ)
deriving DecidableEq

/-- Outcome of the page component's `handleDeposit`. -/
inductive DepositOutcome where
  | notReady
  | invalidAmount
  | noProvider
  | noSender
  | insufficientFunds (shortfallLamports : ℤ)
  | failed (message : String)
  | completed (tx : String) (newBalance : ℤ)
deriving DecidableEq

/-- Responses of the external collaborators of the page component's
`handleDeposit`: the RPC connection, the wallet provider, and the API
route. -/
structure DepositEnv where
  providerPresent : Bool
  senderAddress : String
  availableLamports : ℤ
  feeForMessage : Option ℤ
  signResult : Except String String
  confirmResult : Except String Unit
  destBalance : ℕ → ℤ
  apiResult : Except String DepositResponse

/-- The settle-check loop of `handleDeposit`: up to `fuel` attempts
starting at index `attempt`, each reading the destination balance and,
when it is still below the target, sleeping 1500 ms before the next
attempt.  Returns whether the transfer was observed and the effect
trace. -/
def pollLoop (destBalance : ℕ → ℤ) (target : ℤ) : ℕ → ℕ → Bool × List DepositEffect
  | _, 0 => (false, [])
  | attempt, fuel + 1 =>
    if target ≤ destBalance attempt then
      (true, [.pollBalance attempt])
    else
      let next := pollLoop destBalance target (attempt + 1) fuel
      (next.1, .pollBalance attempt :: .sleep 1500 :: next.2)

/-- The page component's `handleDeposit`: guard checks, solvency check
against `transferLamports` plus the fee estimate, signature and
finality, the bounded settle poll, and the API deposit call with the
requested lamports only.  Returns the outcome, the effect trace, and
the resulting tracked balance (given the tracked balance before the
call). -/
def handleDepositUI (env : DepositEnv) (ownerSecret publicAddress : String)
    (depositInput : JsVal) (balance0 : ℤ) :
    DepositOutcome × List DepositEffect × ℤ :=
  if ownerSecret = "" || publicAddress = "" then (.notReady, [], balance0)
  else if validateLamports depositInput = false then (.invalidAmount, [], balance0)
  else if env.providerPresent = false then (.noProvider, [], balance0)
  else if env.senderAddress = "" then (.noSender, [], balance0)
  else
    let lamports := solToLamports depositInput.toQ
    let transferLamports := lamports + FEE_BUFFER_LAMPORTS
    let estimatedTxFee := env.feeForMessage.getD 5000
    let requiredLamports := transferLamports + estimatedTxFee
    if env.availableLamports < requiredLamports then
      (.insufficientFunds (requiredLamports - env.availableLamports), [], balance0)
    else
      match env.signResult with
      | .error e => (.failed (classifyDepositError e), [.signAndSend transferLamports], balance0)
      | .ok _sig =>
        match env.confirmResult with
        | .error e => (.failed (classifyDepositError e), [.signAndSend transferLamports], balance0)
        | .ok _ =>
          let poll := pollLoop env.destBalance transferLamports 0 10
          let fxBase := DepositEffect.signAndSend transferLamports ::
            poll.2 ++ (if poll.1 then [] else [DepositEffect.warnUnsettled])
          match env.apiResult with
          | .error e =>
            (.failed (classifyDepositError e), fxBase ++ [.apiDeposit lamports], balance0)
          | .ok r =>
            (.completed r.tx r.balanceLamports, fxBase ++ [.apiDeposit lamports],
             r.balanceLamports)

/-- A queued payout recipient of the page component. -/
structure Recipient where
  id : String
  address : String
  amount : ℚ
deriving DecidableEq

/-- Source `totalQueuedLamports`: the sum of the rounded lamport amounts
of the queued recipients. -/
def totalQueuedLamports (recipients : List Recipient) : ℤ :=
  recipients.foldl (fun sum r => sum + solToLamports r.amount) 0

/-- The payload built by the page component's `handlePayout` from the
recipient queue. -/
def mkPayouts (recipients : List Recipient) : List Payout :=
  recipients.map fun r => { address := r.address, lamports := .num ((solToLamports r.amount : ℤ) : ℚ) }

/-- Outcome of the page component's `handlePayout`. -/
inductive PayoutOutcome where
  | notReady
  | noRecipients
  | invalidTotal
  | exceedsBalance
  | failed (message : String)
  | completed (items : List WithdrawItem) (newBalance : ℤ)
deriving DecidableEq

/-- The page component's `handlePayout`: guard checks, the advisory
tracked-balance check, the API withdraw call, and on success the
tracked-balance overwrite and the atomic queue clear.  Returns the
outcome, the resulting tracked balance, and the resulting recipient
queue. -/
def handlePayoutUI (apiResult : Except String WithdrawResponse)
    (ownerSecret : String) (recipients : List Recipient) (balance0 : ℤ) :
    PayoutOutcome × ℤ × List Recipient :=
  if ownerSecret = "" then (.notReady, balance0, recipients)
  else if recipients.isEmpty then (.noRecipients, balance0, recipients)
  else if totalQueuedLamports recipients ≤ 0 then (.invalidTotal, balance0, recipients)
  else if 0 < balance0 ∧ balance0 < totalQueuedLamports recipients then
    (.exceedsBalance, balance0, recipients)
  else
    match apiResult with
    | .error e => (.failed e, balance0, recipients)
    | .ok r => (.completed r.items r.balanceLamports, r.balanceLamports, [])

/-- The page component's `refreshBalance`: on success the tracked
balance is overwritten with the relay-reported value, otherwise it is
left unchanged. -/
def refreshBalanceUI (apiResult : Except String ℤ) (ownerSecret : String)
    (balance0 : ℤ) : ℤ :=
  if ownerSecret = "" then balance0
  else
    match apiResult with
    | .error _ => balance0
    | .ok b => b

/-- A payout entry that the withdraw loop rejects: missing (falsy)
address or an amount that is not a finite number greater than zero. -/
def invalidEntry (e : Payout) : Bool :=
  decide (e.address = "") || !validateLamports e.lamports

/-- Index of the first invalid entry of a batch, if any. -/
def firstInvalidIdx : List Payout → Option ℕ
  | [] => none
  | e :: rest =>
    if invalidEntry e then some 0 else (firstInvalidIdx rest).map (· + 1)

/-- Number of relay withdraw calls in a trace. -/
def withdrawCallCount (t : List RelayCall) : ℕ :=
  t.countP fun c => match c with | .withdraw _ _ => true | _ => false

/-- Number of session-cache resets in a trace. -/
def clearCacheCount (t : List RelayCall) : ℕ :=
  t.countP fun c => match c with | .clearCache => true | _ => false

/-- `resetGuarded prev t`: every call in `t` that is not itself a reset
is immediately preceded by a reset (`prev` is the call just before
`t`). -/
def resetGuarded : Option RelayCall → List RelayCall → Bool
  | _, [] => true
  | prev, c :: rest =>
    (c == RelayCall.clearCache || prev == some RelayCall.clearCache) &&
      resetGuarded (some c) rest

/-- Every relay primitive call in the trace is immediately preceded by
its own session-cache reset — the discipline claimed by the spec. -/
def traceResetGuarded (t : List RelayCall) : Bool := resetGuarded none t

/-- The relay run fails for the first time at (0-based) position `k` of
the batch: every earlier withdraw call succeeds and the call for the
entry at position `k` returns an error. -/
inductive BatchFailsAt (relay : Relay) : ℕ → List Payout → ℕ → String → Prop where
  | here (idx : ℕ) (e : Payout) (rest : List Payout) (msg : String)
      (h : relay.withdrawResp idx e.address (jsRound e.lamports.toQ) = .error msg) :
      BatchFailsAt relay idx (e :: rest) 0 msg
  | there (idx : ℕ) (e : Payout) (rest : List Payout) (k : ℕ) (msg : String)
      (r : WithdrawOk)
      (h : relay.withdrawResp idx e.address (jsRound e.lamports.toQ) = .ok r)
      (htail : BatchFailsAt relay (idx + 1) rest k msg) :
      BatchFailsAt relay idx (e :: rest) (k + 1) msg

/-- A relay oracle that accepts every call. -/
def relayOk : Relay :=
  { depositResp := fun _ => .ok { tx := "dtx" },
    withdrawResp := fun i addr amt =>
      .ok { tx := "wtx", recipient := addr, amount_in_lamports := amt,
            fee_in_lamports := i, isPartial := false },
    balanceResp := .ok 42 }

/-- A relay oracle whose first withdraw call succeeds and whose later
withdraw calls fail. -/
def relayFailAt1 : Relay :=
  { depositResp := fun _ => .ok { tx := "dtx" },
    withdrawResp := fun i addr amt =>
      if i = 0 then
        .ok { tx := "wtx", recipient := addr, amount_in_lamports := amt,
              fee_in_lamports := 0, isPartial := false }
      else .error "relay exploded",
    balanceResp := .ok 42 }

/-- A relay oracle that rejects every call. -/
def relayDown : Relay :=
  { depositResp := fun _ => .error "relay down",
    withdrawResp := fun _ _ _ => .error "relay down",
    balanceResp := .error "relay down" }

/-- Withdraw batch whose second recipient has a zero amount. -/
def c1Body : WithdrawBody :=
  { rpcUrl := "r", owner := "o",
    payouts := [{ address := "alice", lamports := .num 5 },
                { address := "bob", lamports := .num 0 }] }

/-- Withdraw batch of three valid recipients. -/
def c2Body : WithdrawBody :=
  { rpcUrl := "r", owner := "o",
    payouts := [{ address := "alice", lamports := .num 5 },
                { address := "bob", lamports := .num 7 },
                { address := "carol", lamports := .num 9 }] }

/-- Withdraw batch of two valid recipients. -/
def c3Body : WithdrawBody :=
  { rpcUrl := "r", owner := "o",
    payouts := [{ address := "alice", lamports := .num 5 },
                { address := "bob", lamports := .num 7 }] }

/-- A deposit environment in which every external step succeeds, the
signer holds 2 SOL, and the relay reports a pool balance of 1.5 SOL. -/
def envOk : DepositEnv :=
  { providerPresent := true, senderAddress := "phantom",
    availableLamports := 2000000000, feeForMessage := some 5000,
    signResult := .ok "sig", confirmResult := .ok (),
    destBalance := fun _ => 2000000000,
    apiResult := .ok { tx := "dtx", balanceLamports := 1500000000 } }

/-- A deposit environment in which the signer holds almost nothing, so
the solvency check fails. -/
def envPoor : DepositEnv :=
  { providerPresent := true, senderAddress := "phantom",
    availableLamports := 1000, feeForMessage := some 5000,
    signResult := .ok "sig", confirmResult := .ok (),
    destBalance := fun _ => 0,
    apiResult := .ok { tx := "dtx", balanceLamports := 0 } }

/-- A deposit environment in which the funding transfer succeeds but the
destination balance never reflects it and the relay then rejects the
deposit with the no-prior-credit message. -/
def envUnsettled : DepositEnv :=
  { providerPresent := true, senderAddress := "phantom",
    availableLamports := 2000000000, feeForMessage := some 5000,
    signResult := .ok "sig", confirmResult := .ok (),
    destBalance := fun _ => 0,
    apiResult := .error "Transaction simulation failed: Attempt to debit an account but found no record of a prior credit." }

/-- Payout queue of two valid recipients (0.2 SOL and 0.3 SOL). -/
def c7Recipients : List Recipient :=
  [{ id := "1", address := "alice", amount := mkRat 2 10 },
   { id := "2", address := "bob", amount := mkRat 3 10 }]

/-- The signer transfer requests within a deposit effect trace. -/
def signAndSendCalls (fx : List DepositEffect) : List DepositEffect :=
  fx.filter fun c => match c with | .signAndSend _ => true | _ => false

/-- The relay deposit calls within a deposit effect trace. -/
def apiDepositCalls (fx : List DepositEffect) : List DepositEffect :=
  fx.filter fun c => match c with | .apiDeposit _ => true | _ => false

/-- Number of destination-balance polls within a deposit effect trace. -/
def pollCount (fx : List DepositEffect) : ℕ :=
  fx.countP fun c => match c with | .pollBalance _ => true | _ => false

/-- `jsRound` is exactly `⌊q + 1/2⌋`, the mathematical semantics of
JavaScript `Math.round`. -/
theorem jsRound_eq_floor (q : ℚ) : jsRound q = ⌊q + 1 / 2⌋ := by
  have hd : ((q.den : ℚ)) ≠ 0 := Nat.cast_ne_zero.mpr q.den_nz
  have hq : (q.num : ℚ) = q * (q.den : ℚ) := (div_eq_iff hd).mp (Rat.num_div_den q)
  have h : q + 1 / 2 = (((2 * q.num + (q.den : ℤ)) : ℤ) : ℚ) / (((2 * q.den : ℕ)) : ℚ) := by
    push_cast
    field_simp
    rw [hq]
    ring
  rw [jsRound, h, Rat.floor_intCast_div_natCast]
  norm_num

/-- `solToLamports` is the source expression
`Math.round(amount * LAMPORTS_PER_SOL)`. -/
theorem solToLamports_eq (q : ℚ) :
    solToLamports q = jsRound (q * LAMPORTS_PER_SOL) := by
  have hd : ((q.den : ℚ)) ≠ 0 := Nat.cast_ne_zero.mpr q.den_nz
  have hq : (q.num : ℚ) = q * (q.den : ℚ) := (div_eq_iff hd).mp (Rat.num_div_den q)
  have h : q * LAMPORTS_PER_SOL + 1 / 2 =
      (((2 * q.num * 1000000000 + (q.den : ℤ)) : ℤ) : ℚ) / (((2 * q.den : ℕ)) : ℚ) := by
    push_cast
    field_simp
    rw [hq, LAMPORTS_PER_SOL]
    ring
  rw [jsRound_eq_floor, solToLamports, h, Rat.floor_intCast_div_natCast]
  norm_num

/-- A validated amount is a finite number greater than zero. -/
theorem validateLamports_toQ_pos {v : JsVal} (h : validateLamports v = true) :
    0 < v.toQ := by
  cases v
  case num q => simpa [JsVal.toQ] using of_decide_eq_true (by simpa [validateLamports] using h)
  all_goals simp [validateLamports] at h

/-- Rounding a positive amount never produces a negative lamport value. -/
theorem jsRound_nonneg {q : ℚ} (h : 0 < q) : 0 ≤ jsRound q := by
  rw [jsRound_eq_floor]
  rw [Int.le_floor]
  push_cast
  linarith

/-- Mapping the success value preserves errors. -/
theorem isErr_map (f : α → β) (x : Except String α) :
    isErr (x.map f) = isErr x := by
  cases x <;> rfl

/-- The withdraw loop on a batch whose first invalid entry sits at index
`k` fails, and performs at most `k` relay withdraw calls (fewer when the
relay itself fails earlier). -/
theorem runWithdrawLoop_invalid (relay : Relay) :
    ∀ (payouts : List Payout) (idx k : ℕ), firstInvalidIdx payouts = some k →
    isErr (runWithdrawLoop relay idx payouts).1 = true ∧
    withdrawCallCount (runWithdrawLoop relay idx payouts).2 ≤ k := by
  intro payouts
  induction payouts with
  | nil => intro idx k h; simp [firstInvalidIdx] at h
  | cons e rest ih =>
    intro idx k h
    by_cases hinv : invalidEntry e = true
    · have hk : k = 0 := by
        simp [firstInvalidIdx, hinv] at h
        omega
      subst hk
      have hcases : e.address = "" ∨ validateLamports e.lamports = false := by
        simpa [invalidEntry] using hinv
      rcases hcases with haddr | hval
      · simp [runWithdrawLoop, haddr, isErr, withdrawCallCount]
      · by_cases h1 : e.address = ""
        · simp [runWithdrawLoop, h1, isErr, withdrawCallCount]
        · simp [runWithdrawLoop, h1, hval, isErr, withdrawCallCount]
    · have hne : e.address ≠ "" := by
        intro hcontra
        apply hinv
        simp [invalidEntry, hcontra]
      have hv : validateLamports e.lamports = true := by
        cases hvl : validateLamports e.lamports
        · exfalso; apply hinv; simp [invalidEntry, hvl]
        · rfl
      obtain ⟨k', hk', hkk⟩ : ∃ k', firstInvalidIdx rest = some k' ∧ k = k' + 1 := by
        simp only [firstInvalidIdx, hinv, if_false, Bool.false_eq_true] at h
        rcases hrest : firstInvalidIdx rest with _ | k'
        · simp [hrest] at h
        · simp [hrest] at h
          exact ⟨k', rfl, h.symm⟩
      subst hkk
      cases hresp : relay.withdrawResp idx e.address (jsRound e.lamports.toQ) with
      | error msg =>
        simp [runWithdrawLoop, hne, hv, hresp, isErr, withdrawCallCount]
      | ok r =>
        have hrec := ih (idx + 1) k' hk'
        constructor
        · simpa [runWithdrawLoop, hne, hv, hresp, isErr_map] using hrec.1
        · have hstep : withdrawCallCount (runWithdrawLoop relay idx (e :: rest)).2
              = withdrawCallCount (runWithdrawLoop relay (idx + 1) rest).2 + 1 := by
            simp [runWithdrawLoop, hne, hv, hresp, withdrawCallCount, List.countP_cons]
          omega

/-- C1 (amended): a payout batch whose first invalid recipient (missing
address or non-positive amount) sits at index k is rejected in its
entirety — the withdraw operation returns an error and reports no items
— and no relay withdraw call is made for the invalid recipient or any
recipient after it; at most the k valid recipients before it have been
submitted.  In particular a batch whose first recipient is invalid
causes zero relay withdraw calls. -/
theorem withdraw_invalid_batch_rejected (relay : Relay) (body : WithdrawBody) (k : ℕ)
    (h : firstInvalidIdx body.payouts = some k) :
    isErr (handleWithdraw relay body).1 = true ∧
    withdrawCallCount (handleWithdraw relay body).2 ≤ k := by
  have hne : body.payouts.isEmpty = false := by
    cases hp : body.payouts with
    | nil => rw [hp] at h; simp [firstInvalidIdx] at h
    | cons a l => simp
  by_cases hcred : missingCreds body.rpcUrl body.owner = true
  · simp [handleWithdraw, hne, hcred, isErr, withdrawCallCount]
  · have hcred2 : missingCreds body.rpcUrl body.owner = false :=
      Bool.eq_false_iff.mpr hcred
    have hl := runWithdrawLoop_invalid relay body.payouts 0 k h
    cases hres : (runWithdrawLoop relay 0 body.payouts).1 with
    | error e =>
      constructor
      · simp [handleWithdraw, hne, hcred2, hres, isErr]
      · have htr : (handleWithdraw relay body).2
            = .clearCache :: (runWithdrawLoop relay 0 body.payouts).2 := by
          simp [handleWithdraw, hne, hcred2, hres]
        rw [htr]
        calc withdrawCallCount (RelayCall.clearCache :: (runWithdrawLoop relay 0 body.payouts).2)
            = withdrawCallCount (runWithdrawLoop relay 0 body.payouts).2 := by
              simp [withdrawCallCount, List.countP_cons]
          _ ≤ k := hl.2
    | ok items =>
      rw [hres] at hl
      simp [isErr] at hl

/-- C1 counterexample: the batch [alice: 5 lamports, bob: 0 lamports]
contains an invalid recipient and is rejected, yet one relay withdraw
call (for alice) has already been made — not zero as the claim
states. -/
theorem withdraw_invalid_batch_counterexample :
    invalidEntry { address := "bob", lamports := JsVal.num 0 } = true ∧
    isErr (handleWithdraw relayOk c1Body).1 = true ∧
    withdrawCallCount (handleWithdraw relayOk c1Body).2 = 1 := by decide

/-- Witness for C1: the amended theorem applied to a concrete batch
whose second recipient has a zero amount. -/
theorem withdraw_invalid_batch_rejected_witness :
    isErr (handleWithdraw relayDown c1Body).1 = true ∧
    withdrawCallCount (handleWithdraw relayDown c1Body).2 ≤ 1 :=
  withdraw_invalid_batch_rejected relayDown c1Body 1 (by decide)

/-- The withdraw loop on an all-valid batch whose relay run first fails
at index k returns that error and a trace of exactly the withdraw calls
for the entries up to and including index k, in order. -/
theorem runWithdrawLoop_relayFail (relay : Relay) :
    ∀ (payouts : List Payout) (idx k : ℕ) (msg : String),
    (∀ e ∈ payouts, invalidEntry e = false) →
    BatchFailsAt relay idx payouts k msg →
    runWithdrawLoop relay idx payouts =
      (.error msg,
       (payouts.take (k + 1)).map fun e => .withdraw (jsRound e.lamports.toQ) e.address) := by
  intro payouts idx k msg hvalid hfail
  induction hfail with
  | here idx e rest msg hresp =>
    have he : invalidEntry e = false := hvalid e (by simp)
    have hne : e.address ≠ "" := by
      intro hcontra
      simp [invalidEntry, hcontra] at he
    have hv : validateLamports e.lamports = true := by
      rcases hvl : validateLamports e.lamports
      · simp [invalidEntry, hvl] at he
      · rfl
    simp [runWithdrawLoop, hne, hv, hresp]
  | there idx e rest k msg r hresp htail ih =>
    have he : invalidEntry e = false := hvalid e (by simp)
    have hne : e.address ≠ "" := by
      intro hcontra
      simp [invalidEntry, hcontra] at he
    have hv : validateLamports e.lamports = true := by
      rcases hvl : validateLamports e.lamports
      · simp [invalidEntry, hvl] at he
      · rfl
    have hrec := ih (fun x hx => hvalid x (by simp [hx]))
    simp [runWithdrawLoop, hne, hv, hresp, hrec, Except.map]

/-- C2 (amended): when the relay first fails at recipient index k of an
all-valid batch, the operation aborts there: withdraw calls are made
exactly for the recipients up to and including index k (in order, none
after it), and the caller receives only the relay's error message — the
items completed before the failure are not included in the response,
although their relay calls have succeeded. -/
theorem withdraw_batch_abort_on_relay_failure (relay : Relay) (body : WithdrawBody)
    (k : ℕ) (msg : String)
    (hvalid : ∀ e ∈ body.payouts, invalidEntry e = false)
    (hcreds : missingCreds body.rpcUrl body.owner = false)
    (hfail : BatchFailsAt relay 0 body.payouts k msg) :
    handleWithdraw relay body =
      (.error msg,
       .clearCache ::
         (body.payouts.take (k + 1)).map fun e => .withdraw (jsRound e.lamports.toQ) e.address) := by
  have hne : body.payouts.isEmpty = false := by
    cases hp : body.payouts with
    | nil => rw [hp] at hfail; cases hfail
    | cons a l => simp
  have hloop := runWithdrawLoop_relayFail relay body.payouts 0 k msg hvalid hfail
  simp [handleWithdraw, hne, hcreds, hloop]

/-- C2 counterexample: on the batch [alice, bob, carol] with a relay
that accepts the first call and rejects the second, alice's withdraw
call succeeded at the relay, yet the operation result is a bare error
carrying no completed entry for alice (and no abort record either);
only the trace shows that alice and bob were attempted and carol was
not. -/
theorem withdraw_abort_items_lost_counterexample :
    isErr (relayFailAt1.withdrawResp 0 "alice" 5) = false ∧
    isErr (handleWithdraw relayFailAt1 c2Body).1 = true ∧
    (handleWithdraw relayFailAt1 c2Body).2
      = [.clearCache, .withdraw 5 "alice", .withdraw 7 "bob"] := by decide

/-- Witness for C2: the amended theorem applied to the concrete batch
[alice, bob, carol] with the relay failing at index 1. -/
theorem withdraw_batch_abort_witness :
    handleWithdraw relayFailAt1 c2Body =
      (.error "relay exploded",
       .clearCache ::
         (c2Body.payouts.take 2).map fun e => .withdraw (jsRound e.lamports.toQ) e.address) :=
  withdraw_batch_abort_on_relay_failure relayFailAt1 c2Body 1 "relay exploded"
    (by decide) (by decide)
    (BatchFailsAt.there 0 _ _ 0 "relay exploded"
      { tx := "wtx", recipient := "alice", amount_in_lamports := 5,
        fee_in_lamports := 0, isPartial := false }
      (by decide)
      (BatchFailsAt.here 1 _ _ "relay exploded" (by decide)))

/-- The withdraw loop itself never issues a session-cache reset. -/
theorem runWithdrawLoop_no_clearCache (relay : Relay) :
    ∀ (payouts : List Payout) (idx : ℕ),
    clearCacheCount (runWithdrawLoop relay idx payouts).2 = 0 := by
  intro payouts
  induction payouts with
  | nil => intro idx; simp [runWithdrawLoop, clearCacheCount]
  | cons e rest ih =>
    intro idx
    by_cases h1 : e.address = ""
    · simp [runWithdrawLoop, h1, clearCacheCount]
    · by_cases h2 : validateLamports e.lamports = false
      · simp [runWithdrawLoop, h1, h2, clearCacheCount]
      · have h2b : validateLamports e.lamports = true := by
          cases hv : validateLamports e.lamports
          · exact absurd hv h2
          · rfl
        cases hresp : relay.withdrawResp idx e.address (jsRound e.lamports.toQ) with
        | error msg => simp [runWithdrawLoop, h1, h2b, hresp, clearCacheCount]
        | ok r =>
          have hrec := ih (idx + 1)
          simp only [clearCacheCount, List.countP_cons] at hrec ⊢
          simp [runWithdrawLoop, h1, h2b, hresp, List.countP_cons, hrec]

/-- C3 (amended): each API operation (deposit, withdraw batch, balance
query) performs exactly one session-cache reset, as its first relay
call before any primitive call — not one immediately before every
individual primitive call: the withdraw calls after the first item and
the final balance re-fetch are not preceded by their own reset. -/
theorem relay_reset_once_per_operation (relay : Relay)
    (dbody : DepositBody) (wbody : WithdrawBody) (bbody : BalanceBody) :
    ((handleDepositApi relay dbody).2 = [] ∨
      ((handleDepositApi relay dbody).2.head? = some RelayCall.clearCache ∧
        clearCacheCount (handleDepositApi relay dbody).2 = 1)) ∧
    ((handleWithdraw relay wbody).2 = [] ∨
      ((handleWithdraw relay wbody).2.head? = some RelayCall.clearCache ∧
        clearCacheCount (handleWithdraw relay wbody).2 = 1)) ∧
    ((handleBalanceApi relay bbody).2 = [] ∨
      ((handleBalanceApi relay bbody).2.head? = some RelayCall.clearCache ∧
        clearCacheCount (handleBalanceApi relay bbody).2 = 1)) := by
  refine ⟨?_, ?_, ?_⟩
  · by_cases h1 : validateLamports dbody.lamports = false
    · left; simp [handleDepositApi, h1]
    · by_cases h2 : missingCreds dbody.rpcUrl dbody.owner = true
      · left; simp [handleDepositApi, h1, h2]
      · right
        cases hdep : relay.depositResp (jsRound dbody.lamports.toQ) with
        | error e => simp [handleDepositApi, h1, h2, hdep, clearCacheCount]
        | ok r =>
          cases hbal : relay.balanceResp with
          | error e => simp [handleDepositApi, h1, h2, hdep, hbal, clearCacheCount]
          | ok b => simp [handleDepositApi, h1, h2, hdep, hbal, clearCacheCount]
  · by_cases h1 : wbody.payouts.isEmpty = true
    · left; simp [handleWithdraw, h1]
    · by_cases h2 : missingCreds wbody.rpcUrl wbody.owner = true
      · left; simp [handleWithdraw, h1, h2]
      · right
        have hloop := runWithdrawLoop_no_clearCache relay wbody.payouts 0
        cases hres : (runWithdrawLoop relay 0 wbody.payouts).1 with
        | error e =>
          constructor
          · simp [handleWithdraw, h1, h2, hres]
          · have htr : (handleWithdraw relay wbody).2
                = .clearCache :: (runWithdrawLoop relay 0 wbody.payouts).2 := by
              simp [handleWithdraw, h1, h2, hres]
            rw [htr]
            simp [clearCacheCount, List.countP_cons] at hloop ⊢
            simpa [clearCacheCount] using hloop
        | ok items =>
          cases hbal : relay.balanceResp with
          | error e =>
            constructor
            · simp [handleWithdraw, h1, h2, hres, hbal]
            · have htr : (handleWithdraw relay wbody).2
                  = .clearCache :: (runWithdrawLoop relay 0 wbody.payouts).2
                      ++ [RelayCall.getPrivateBalance] := by
                simp [handleWithdraw, h1, h2, hres, hbal]
              rw [htr]
              simp [clearCacheCount, List.countP_cons, List.countP_append] at hloop ⊢
              simpa [clearCacheCount] using hloop
          | ok b =>
            constructor
            · simp [handleWithdraw, h1, h2, hres, hbal]
            · have htr : (handleWithdraw relay wbody).2
                  = .clearCache :: (runWithdrawLoop relay 0 wbody.payouts).2
                      ++ [RelayCall.getPrivateBalance] := by
                simp [handleWithdraw, h1, h2, hres, hbal]
              rw [htr]
              simp [clearCacheCount, List.countP_cons, List.countP_append] at hloop ⊢
              simpa [clearCacheCount] using hloop
  · by_cases h2 : missingCreds bbody.rpcUrl bbody.owner = true
    · left; simp [handleBalanceApi, h2]
    · right
      cases hbal : relay.balanceResp with
      | error e => simp [handleBalanceApi, h2, hbal, clearCacheCount]
      | ok b => simp [handleBalanceApi, h2, hbal, clearCacheCount]

/-- C3 counterexample: in a successful deposit the final balance
re-fetch follows the deposit call without its own reset, and in a
successful two-item withdraw batch the second withdraw call and the
balance re-fetch follow without their own resets — the
reset-immediately-before-every-call discipline does not hold on these
traces. -/
theorem relay_reset_per_call_counterexample :
    (handleDepositApi relayOk { rpcUrl := "r", owner := "o", lamports := JsVal.num 5 }).2
      = [RelayCall.clearCache, RelayCall.deposit 5, RelayCall.getPrivateBalance] ∧
    traceResetGuarded
      (handleDepositApi relayOk { rpcUrl := "r", owner := "o", lamports := JsVal.num 5 }).2 = false ∧
    (handleWithdraw relayOk c3Body).2
      = [RelayCall.clearCache, RelayCall.withdraw 5 "alice", RelayCall.withdraw 7 "bob",
         RelayCall.getPrivateBalance] ∧
    traceResetGuarded (handleWithdraw relayOk c3Body).2 = false := by decide

/-- C4: `fund(amount)` never submits a transfer when the signer's
spendable balance is below transferTotal plus the estimated network
fee: it returns the insufficient-funds outcome whose reported shortfall
is exactly required minus available, performs no external effect, and
leaves the tracked balance unchanged. -/
theorem fund_insufficient_funds_no_submission (env : DepositEnv)
    (ownerSecret publicAddress : String) (input : JsVal) (b0 : ℤ)
    (howner : ownerSecret ≠ "") (hpub : publicAddress ≠ "")
    (hamt : validateLamports input = true)
    (hprov : env.providerPresent = true) (hsender : env.senderAddress ≠ "")
    (hshort : env.availableLamports <
      solToLamports input.toQ + FEE_BUFFER_LAMPORTS + env.feeForMessage.getD 5000) :
    handleDepositUI env ownerSecret publicAddress input b0 =
      (.insufficientFunds
        (solToLamports input.toQ + FEE_BUFFER_LAMPORTS + env.feeForMessage.getD 5000
          - env.availableLamports),
       [], b0) := by
  simp [handleDepositUI, howner, hpub, hamt, hprov, hsender, hshort]

/-- Witness for C4: a signer holding 1000 lamports cannot fund a 1.5 SOL
deposit (required 1506905000 lamports); the reported shortfall is
exactly 1506904000 and nothing is submitted. -/
theorem fund_insufficient_funds_witness :
    handleDepositUI envPoor "sec" "pub" (.num (mkRat 15 10)) 7 =
      (.insufficientFunds 1506904000, [], 7) := by
  have h := fund_insufficient_funds_no_submission envPoor "sec" "pub"
    (.num (mkRat 15 10)) 7 (by decide) (by decide) (by decide) (by decide)
    (by decide) (by decide)
  rw [h]
  decide

/-- Every effect recorded by the settle-check loop is a balance poll or
a 1500 ms sleep. -/
theorem pollLoop_effects (d : ℕ → ℤ) (t : ℤ) :
    ∀ (fuel attempt : ℕ) (fx : DepositEffect), fx ∈ (pollLoop d t attempt fuel).2 →
    (∃ i, fx = .pollBalance i) ∨ fx = .sleep 1500 := by
  intro fuel
  induction fuel with
  | zero => intro attempt fx hfx; simp [pollLoop] at hfx
  | succ n ih =>
    intro attempt fx hfx
    by_cases h : t ≤ d attempt
    · simp [pollLoop, h] at hfx
      exact Or.inl ⟨attempt, hfx⟩
    · simp [pollLoop, h] at hfx
      rcases hfx with h1 | h1 | h1
      · exact Or.inl ⟨attempt, h1⟩
      · exact Or.inr h1
      · exact ih (attempt + 1) fx h1

/-- C5: a successful deposit of amount a asks the signer to transfer
exactly round(a in lamports) + FEE_BUFFER_LAMPORTS (the fixed constant
6,900,000), calls the relay deposit with the requested rounded amount
only (the buffer excluded), and sets the tracked balance to exactly the
pool balance the relay reported. -/
theorem fund_transfer_includes_buffer_deposit_excludes (env : DepositEnv)
    (ownerSecret publicAddress : String) (input : JsVal) (b0 : ℤ)
    (sig : String) (r : DepositResponse)
    (howner : ownerSecret ≠ "") (hpub : publicAddress ≠ "")
    (hamt : validateLamports input = true)
    (hprov : env.providerPresent = true) (hsender : env.senderAddress ≠ "")
    (hfunds : ¬(env.availableLamports <
      solToLamports input.toQ + FEE_BUFFER_LAMPORTS + env.feeForMessage.getD 5000))
    (hsign : env.signResult = .ok sig) (hconf : env.confirmResult = .ok ())
    (happi : env.apiResult = .ok r) :
    FEE_BUFFER_LAMPORTS = 6900000 ∧
    (handleDepositUI env ownerSecret publicAddress input b0).1
      = .completed r.tx r.balanceLamports ∧
    signAndSendCalls (handleDepositUI env ownerSecret publicAddress input b0).2.1
      = [.signAndSend (solToLamports input.toQ + FEE_BUFFER_LAMPORTS)] ∧
    apiDepositCalls (handleDepositUI env ownerSecret publicAddress input b0).2.1
      = [.apiDeposit (solToLamports input.toQ)] ∧
    (handleDepositUI env ownerSecret publicAddress input b0).2.2 = r.balanceLamports := by
  have hpoll := pollLoop_effects env.destBalance (solToLamports input.toQ + FEE_BUFFER_LAMPORTS)
  have hsignNil : (pollLoop env.destBalance
      (solToLamports input.toQ + FEE_BUFFER_LAMPORTS) 0 10).2.filter
      (fun c => match c with | DepositEffect.signAndSend _ => true | _ => false) = [] := by
    rw [List.filter_eq_nil_iff]
    intro a ha
    rcases hpoll 10 0 a ha with ⟨i, rfl⟩ | rfl <;> simp
  have hapiNil : (pollLoop env.destBalance
      (solToLamports input.toQ + FEE_BUFFER_LAMPORTS) 0 10).2.filter
      (fun c => match c with | DepositEffect.apiDeposit _ => true | _ => false) = [] := by
    rw [List.filter_eq_nil_iff]
    intro a ha
    rcases hpoll 10 0 a ha with ⟨i, rfl⟩ | rfl <;> simp
  refine ⟨rfl, ?_, ?_, ?_, ?_⟩
  · simp [handleDepositUI, howner, hpub, hamt, hprov, hsender, hfunds, hsign, hconf, happi]
  · cases hsettle : (pollLoop env.destBalance
        (solToLamports input.toQ + FEE_BUFFER_LAMPORTS) 0 10).1 <;>
      simp [handleDepositUI, howner, hpub, hamt, hprov, hsender, hfunds, hsign, hconf,
        happi, hsettle, signAndSendCalls, List.filter_append, hsignNil]
  · cases hsettle : (pollLoop env.destBalance
        (solToLamports input.toQ + FEE_BUFFER_LAMPORTS) 0 10).1 <;>
      simp [handleDepositUI, howner, hpub, hamt, hprov, hsender, hfunds, hsign, hconf,
        happi, hsettle, apiDepositCalls, List.filter_append, hapiNil]
  · simp [handleDepositUI, howner, hpub, hamt, hprov, hsender, hfunds, hsign, hconf, happi]

/-- Witness for C5: depositing 1.5 SOL with every step succeeding asks
the signer for exactly 1506900000 lamports (1.5069 SOL), calls the
relay deposit with 1500000000 lamports (1.5 SOL), and adopts the
relay-reported balance. -/
theorem fund_transfer_amounts_witness :
    (handleDepositUI envOk "sec" "pub" (.num (mkRat 15 10)) 0).1
      = .completed "dtx" 1500000000 ∧
    signAndSendCalls (handleDepositUI envOk "sec" "pub" (.num (mkRat 15 10)) 0).2.1
      = [.signAndSend 1506900000] ∧
    apiDepositCalls (handleDepositUI envOk "sec" "pub" (.num (mkRat 15 10)) 0).2.1
      = [.apiDeposit 1500000000] ∧
    (handleDepositUI envOk "sec" "pub" (.num (mkRat 15 10)) 0).2.2 = 1500000000 := by
  obtain ⟨-, h1, h2, h3, h4⟩ := fund_transfer_includes_buffer_deposit_excludes envOk
    "sec" "pub" (.num (mkRat 15 10)) 0 "sig" { tx := "dtx", balanceLamports := 1500000000 }
    (by decide) (by decide) (by decide) (by decide) (by decide) (by decide) rfl rfl rfl
  have hs : solToLamports (JsVal.num (mkRat 15 10)).toQ = 1500000000 := by decide
  rw [hs] at h2 h3
  refine ⟨h1, ?_, h3, h4⟩
  simpa [FEE_BUFFER_LAMPORTS] using h2

/-- C6: the tracked balance is only ever updated from a relay response:
for each of the three operations (deposit, payout batch, balance
refresh) the resulting tracked balance is either the previous value
(when the operation did not complete) or exactly the balance value the
relay returned — never a locally computed adjustment. -/
theorem tracked_balance_from_relay_only :
    (∀ (env : DepositEnv) (o p : String) (i : JsVal) (b0 : ℤ),
      (handleDepositUI env o p i b0).2.2 = b0 ∨
      ∃ r, env.apiResult = .ok r ∧ (handleDepositUI env o p i b0).2.2 = r.balanceLamports) ∧
    (∀ (api : Except String WithdrawResponse) (o : String) (rs : List Recipient) (b0 : ℤ),
      (handlePayoutUI api o rs b0).2.1 = b0 ∨
      ∃ r, api = .ok r ∧ (handlePayoutUI api o rs b0).2.1 = r.balanceLamports) ∧
    (∀ (api : Except String ℤ) (o : String) (b0 : ℤ),
      refreshBalanceUI api o b0 = b0 ∨
      ∃ b, api = .ok b ∧ refreshBalanceUI api o b0 = b) := by
  refine ⟨?_, ?_, ?_⟩
  · intro env o p i b0
    by_cases h1 : o = "" ∨ p = ""
    · left
      rcases h1 with h1 | h1 <;> simp [handleDepositUI, h1]
    · push_neg at h1
      by_cases h2 : validateLamports i = false
      · left; simp [handleDepositUI, h1.1, h1.2, h2]
      · by_cases h3 : env.providerPresent = false
        · left; simp [handleDepositUI, h1.1, h1.2, h2, h3]
        · by_cases h4 : env.senderAddress = ""
          · left; simp [handleDepositUI, h1.1, h1.2, h2, h3, h4]
          · by_cases h5 : env.availableLamports <
                solToLamports i.toQ + FEE_BUFFER_LAMPORTS + env.feeForMessage.getD 5000
            · left; simp [handleDepositUI, h1.1, h1.2, h2, h3, h4, h5]
            · cases hsign : env.signResult with
              | error e => left; simp [handleDepositUI, h1.1, h1.2, h2, h3, h4, h5, hsign]
              | ok sig =>
                cases hconf : env.confirmResult with
                | error e =>
                  left; simp [handleDepositUI, h1.1, h1.2, h2, h3, h4, h5, hsign, hconf]
                | ok u =>
                  cases happi : env.apiResult with
                  | error e =>
                    left
                    simp [handleDepositUI, h1.1, h1.2, h2, h3, h4, h5, hsign, hconf, happi]
                  | ok r =>
                    right
                    refine ⟨r, rfl, ?_⟩
                    simp [handleDepositUI, h1.1, h1.2, h2, h3, h4, h5, hsign, hconf, happi]
  · intro api o rs b0
    by_cases h1 : o = ""
    · left; simp [handlePayoutUI, h1]
    · by_cases h2 : rs.isEmpty = true
      · left; simp [handlePayoutUI, h1, h2]
      · by_cases h3 : totalQueuedLamports rs ≤ 0
        · left; simp [handlePayoutUI, h1, h2, h3]
        · by_cases h4 : 0 < b0 ∧ b0 < totalQueuedLamports rs
          · left; simp [handlePayoutUI, h1, h2, h3, h4]
          · cases hapi : api with
            | error e => left; simp [handlePayoutUI, h1, h2, h3, h4, hapi]
            | ok r =>
              right
              refine ⟨r, rfl, ?_⟩
              simp [handlePayoutUI, h1, h2, h3, h4, hapi]
  · intro api o b0
    by_cases h1 : o = ""
    · left; simp [refreshBalanceUI, h1]
    · cases hapi : api with
      | error e => left; simp [refreshBalanceUI, h1, hapi]
      | ok b =>
        right
        refine ⟨b, rfl, ?_⟩
        simp [refreshBalanceUI, h1, hapi]

/-- C7: the recipient queue is cleared exactly when the composed payout
operation (page handler calling the API withdraw handler on the payload
built from the queue) completes; on any failure — guard rejection,
relay-side abort, or any API error — the queue is returned unchanged so
the caller may retry. -/
theorem payout_queue_cleared_iff_success (relay : Relay)
    (rpcUrl owner ownerSecret : String) (recipients : List Recipient) (b0 : ℤ) :
    ((handlePayoutUI
        (handleWithdraw relay { rpcUrl := rpcUrl, owner := owner,
                                payouts := mkPayouts recipients }).1
        ownerSecret recipients b0).2.2
      = match (handlePayoutUI
          (handleWithdraw relay { rpcUrl := rpcUrl, owner := owner,
                                  payouts := mkPayouts recipients }).1
          ownerSecret recipients b0).1 with
        | .completed _ _ => []
        | _ => recipients) ∧
    (isErr (handleWithdraw relay { rpcUrl := rpcUrl, owner := owner,
                                   payouts := mkPayouts recipients }).1 = true →
      (handlePayoutUI
        (handleWithdraw relay { rpcUrl := rpcUrl, owner := owner,
                                payouts := mkPayouts recipients }).1
        ownerSecret recipients b0).2.2 = recipients) := by
  cases hapi : (handleWithdraw relay { rpcUrl := rpcUrl, owner := owner, payouts := mkPayouts recipients }).1 with
  | error e =>
    constructor
    · by_cases h1 : ownerSecret = ""
      · simp [handlePayoutUI, h1]
      · by_cases h2 : recipients.isEmpty = true
        · simp [handlePayoutUI, h1, h2]
        · by_cases h3 : totalQueuedLamports recipients ≤ 0
          · simp [handlePayoutUI, h1, h2, h3]
          · by_cases h4 : 0 < b0 ∧ b0 < totalQueuedLamports recipients
            · simp [handlePayoutUI, h1, h2, h3, h4]
            · simp [handlePayoutUI, h1, h2, h3, h4]
    · intro _
      by_cases h1 : ownerSecret = ""
      · simp [handlePayoutUI, h1]
      · by_cases h2 : recipients.isEmpty = true
        · simp [handlePayoutUI, h1, h2]
        · by_cases h3 : totalQueuedLamports recipients ≤ 0
          · simp [handlePayoutUI, h1, h2, h3]
          · by_cases h4 : 0 < b0 ∧ b0 < totalQueuedLamports recipients
            · simp [handlePayoutUI, h1, h2, h3, h4]
            · simp [handlePayoutUI, h1, h2, h3, h4]
  | ok r =>
    constructor
    · by_cases h1 : ownerSecret = ""
      · simp [handlePayoutUI, h1]
      · by_cases h2 : recipients.isEmpty = true
        · simp [handlePayoutUI, h1, h2]
        · by_cases h3 : totalQueuedLamports recipients ≤ 0
          · simp [handlePayoutUI, h1, h2, h3]
          · by_cases h4 : 0 < b0 ∧ b0 < totalQueuedLamports recipients
            · simp [handlePayoutUI, h1, h2, h3, h4]
            · simp [handlePayoutUI, h1, h2, h3, h4]
    · intro hcontra
      simp [isErr] at hcontra

/-- Witness for C7: with the relay down the payout fails and the
two-recipient queue is returned intact. -/
theorem payout_queue_intact_on_failure_witness :
    (handlePayoutUI
      (handleWithdraw relayDown { rpcUrl := "r", owner := "o",
                                  payouts := mkPayouts c7Recipients }).1
      "sec" c7Recipients 1000000000).2.2 = c7Recipients :=
  (payout_queue_cleared_iff_success relayDown "r" "o" "sec" c7Recipients 1000000000).2
    (by decide)

/-- C8: when the step that submits the deposit to the relay fails, the
caught message is classified by case-insensitive substring: the
no-prior-credit condition maps to the retry-after-delay message, the
ledger-level insufficient-lamports condition maps to the top-up
message, and every other message is surfaced to the user verbatim. -/
theorem fund_relay_error_classified (env : DepositEnv)
    (ownerSecret publicAddress : String) (input : JsVal) (b0 : ℤ)
    (sig : String) (msg : String)
    (howner : ownerSecret ≠ "") (hpub : publicAddress ≠ "")
    (hamt : validateLamports input = true)
    (hprov : env.providerPresent = true) (hsender : env.senderAddress ≠ "")
    (hfunds : ¬(env.availableLamports <
      solToLamports input.toQ + FEE_BUFFER_LAMPORTS + env.feeForMessage.getD 5000))
    (hsign : env.signResult = .ok sig) (hconf : env.confirmResult = .ok ())
    (happi : env.apiResult = .error msg) :
    (handleDepositUI env ownerSecret publicAddress input b0).1
      = .failed (classifyDepositError msg) ∧
    (containsCI priorCreditPat msg = true →
      classifyDepositError msg = priorCreditUserMsg) ∧
    (containsCI priorCreditPat msg = false → containsCI insufficientLamportsPat msg = true →
      classifyDepositError msg = insufficientUserMsg) ∧
    (containsCI priorCreditPat msg = false → containsCI insufficientLamportsPat msg = false →
      classifyDepositError msg = msg) := by
  refine ⟨?_, ?_, ?_, ?_⟩
  · simp [handleDepositUI, howner, hpub, hamt, hprov, hsender, hfunds, hsign, hconf, happi]
  · intro h
    simp [classifyDepositError, h]
  · intro h1 h2
    simp [classifyDepositError, h1, h2]
  · intro h1 h2
    simp [classifyDepositError, h1, h2]

/-- Witness for C8: a relay rejection carrying the no-prior-credit
message is surfaced as the retry-after-delay user message. -/
theorem fund_relay_error_classified_witness :
    (handleDepositUI envUnsettled "sec" "pub" (.num (mkRat 15 10)) 0).1
      = .failed priorCreditUserMsg := by
  obtain ⟨h1, h2, -, -⟩ := fund_relay_error_classified envUnsettled "sec" "pub"
    (.num (mkRat 15 10)) 0 "sig"
    "Transaction simulation failed: Attempt to debit an account but found no record of a prior credit."
    (by decide) (by decide) (by decide) (by decide) (by decide) (by decide) rfl rfl rfl
  rw [h1, h2 (by decide)]

/-- The settle-check loop never makes more balance polls than its
attempt budget. -/
theorem pollLoop_count_le (d : ℕ → ℤ) (t : ℤ) :
    ∀ (fuel attempt : ℕ), pollCount (pollLoop d t attempt fuel).2 ≤ fuel := by
  intro fuel
  induction fuel with
  | zero => intro attempt; simp [pollLoop, pollCount]
  | succ n ih =>
    intro attempt
    by_cases h : t ≤ d attempt
    · simp [pollLoop, h, pollCount]
    · have hrec := ih (attempt + 1)
      have hstep : pollCount (pollLoop d t attempt (n + 1)).2
          = pollCount (pollLoop d t (attempt + 1) n).2 + 1 := by
        simp [pollLoop, h, pollCount, List.countP_cons]
      omega

/-- When the destination balance stays below the target on every
attempt, the settle-check loop exhausts its budget: it reports
unsettled after exactly `fuel` polls. -/
theorem pollLoop_exhaust (d : ℕ → ℤ) (t : ℤ) :
    ∀ (fuel attempt : ℕ), (∀ i, attempt ≤ i → i < attempt + fuel → d i < t) →
    (pollLoop d t attempt fuel).1 = false ∧
    pollCount (pollLoop d t attempt fuel).2 = fuel := by
  intro fuel
  induction fuel with
  | zero => intro attempt h; simp [pollLoop, pollCount]
  | succ n ih =>
    intro attempt h
    have hlt : d attempt < t := h attempt le_rfl (by omega)
    have hcond : ¬ t ≤ d attempt := not_le.mpr hlt
    have hrec := ih (attempt + 1) (fun i h1 h2 => h i (by omega) (by omega))
    constructor
    · simp [pollLoop, hcond, hrec.1]
    · have hstep : pollCount (pollLoop d t attempt (n + 1)).2
          = pollCount (pollLoop d t (attempt + 1) n).2 + 1 := by
        simp [pollLoop, hcond, pollCount, List.countP_cons]
      omega

/-- C9: after finality, the deposit flow polls the destination balance
for at least transferTotal at most 10 times with every inter-attempt
delay equal to 1500 ms, so the loop terminates; and when every
observation stays below the target (poll exhaustion) the flow is
non-fatal: the warning is logged and the relay deposit call is still
made with the requested amount. -/
theorem fund_settle_poll_bounded_nonfatal (env : DepositEnv)
    (ownerSecret publicAddress : String) (input : JsVal) (b0 : ℤ) (sig : String)
    (howner : ownerSecret ≠ "") (hpub : publicAddress ≠ "")
    (hamt : validateLamports input = true)
    (hprov : env.providerPresent = true) (hsender : env.senderAddress ≠ "")
    (hfunds : ¬(env.availableLamports <
      solToLamports input.toQ + FEE_BUFFER_LAMPORTS + env.feeForMessage.getD 5000))
    (hsign : env.signResult = .ok sig) (hconf : env.confirmResult = .ok ()) :
    pollCount (handleDepositUI env ownerSecret publicAddress input b0).2.1 ≤ 10 ∧
    (∀ ms, DepositEffect.sleep ms
        ∈ (handleDepositUI env ownerSecret publicAddress input b0).2.1 → ms = 1500) ∧
    ((∀ i, i < 10 →
        env.destBalance i < solToLamports input.toQ + FEE_BUFFER_LAMPORTS) →
      pollCount (handleDepositUI env ownerSecret publicAddress input b0).2.1 = 10 ∧
      DepositEffect.warnUnsettled
        ∈ (handleDepositUI env ownerSecret publicAddress input b0).2.1 ∧
      DepositEffect.apiDeposit (solToLamports input.toQ)
        ∈ (handleDepositUI env ownerSecret publicAddress input b0).2.1) := by
  have hfx : (handleDepositUI env ownerSecret publicAddress input b0).2.1
      = DepositEffect.signAndSend (solToLamports input.toQ + FEE_BUFFER_LAMPORTS) ::
        ((pollLoop env.destBalance (solToLamports input.toQ + FEE_BUFFER_LAMPORTS) 0 10).2 ++
         ((if (pollLoop env.destBalance
              (solToLamports input.toQ + FEE_BUFFER_LAMPORTS) 0 10).1 then []
           else [DepositEffect.warnUnsettled]) ++
          [DepositEffect.apiDeposit (solToLamports input.toQ)])) := by
    cases happi : env.apiResult <;>
      simp [handleDepositUI, howner, hpub, hamt, hprov, hsender, hfunds, hsign, hconf, happi]
  refine ⟨?_, ?_, ?_⟩
  · have hle := pollLoop_count_le env.destBalance
      (solToLamports input.toQ + FEE_BUFFER_LAMPORTS) 10 0
    rw [hfx]
    cases hsettle : (pollLoop env.destBalance
        (solToLamports input.toQ + FEE_BUFFER_LAMPORTS) 0 10).1 <;>
      simp only [pollCount, List.countP_cons, List.countP_append, hsettle, if_true, if_false,
        Bool.false_eq_true, ite_false, ite_true] at hle ⊢ <;>
      simp <;> omega
  · intro ms hms
    rw [hfx] at hms
    cases hsettle : (pollLoop env.destBalance
        (solToLamports input.toQ + FEE_BUFFER_LAMPORTS) 0 10).1 <;>
      rw [hsettle] at hms <;> simp at hms <;>
      rcases pollLoop_effects env.destBalance
        (solToLamports input.toQ + FEE_BUFFER_LAMPORTS) 10 0 _ hms with ⟨i, hi⟩ | hi <;>
      simp at hi
    · exact hi
    · exact hi
  · intro hall
    have hex := pollLoop_exhaust env.destBalance
      (solToLamports input.toQ + FEE_BUFFER_LAMPORTS) 10 0
      (fun i h1 h2 => hall i (by omega))
    refine ⟨?_, ?_, ?_⟩
    · rw [hfx, hex.1]
      have h2 := hex.2
      simp only [pollCount, List.countP_cons, List.countP_append] at h2 ⊢
      simp
      omega
    · rw [hfx, hex.1]
      simp
    · rw [hfx]
      simp

/-- Witness for C9: with a destination balance that never reflects the
transfer, the flow makes exactly 10 polls, logs the warning, and still
calls the relay deposit with the requested 1.5 SOL. -/
theorem fund_settle_poll_witness :
    pollCount (handleDepositUI envUnsettled "sec" "pub" (.num (mkRat 15 10)) 0).2.1 = 10 ∧
    DepositEffect.warnUnsettled
      ∈ (handleDepositUI envUnsettled "sec" "pub" (.num (mkRat 15 10)) 0).2.1 ∧
    DepositEffect.apiDeposit 1500000000
      ∈ (handleDepositUI envUnsettled "sec" "pub" (.num (mkRat 15 10)) 0).2.1 := by
  obtain ⟨-, -, h⟩ := fund_settle_poll_bounded_nonfatal envUnsettled "sec" "pub"
    (.num (mkRat 15 10)) 0 "sig"
    (by decide) (by decide) (by decide) (by decide) (by decide) (by decide) rfl rfl
  obtain ⟨hc, hw, ha⟩ := h (by decide)
  have hs : solToLamports (JsVal.num (mkRat 15 10)).toQ = 1500000000 := by decide
  rw [hs] at ha
  exact ⟨hc, hw, ha⟩

/-- Every withdraw call issued by the withdraw loop carries the rounded
amount of a payout entry that passed validation. -/
theorem runWithdrawLoop_withdraw_mem (relay : Relay) :
    ∀ (payouts : List Payout) (idx : ℕ) (amt : ℤ) (addr : String),
    RelayCall.withdraw amt addr ∈ (runWithdrawLoop relay idx payouts).2 →
    ∃ e ∈ payouts, e.address = addr ∧ amt = jsRound e.lamports.toQ ∧
      validateLamports e.lamports = true := by
  intro payouts
  induction payouts with
  | nil => intro idx amt addr h; simp [runWithdrawLoop] at h
  | cons e rest ih =>
    intro idx amt addr h
    by_cases h1 : e.address = ""
    · simp [runWithdrawLoop, h1] at h
    · by_cases h2 : validateLamports e.lamports = false
      · simp [runWithdrawLoop, h1, h2] at h
      · have h2b : validateLamports e.lamports = true := by
          cases hv : validateLamports e.lamports
          · exact absurd hv h2
          · rfl
        cases hresp : relay.withdrawResp idx e.address (jsRound e.lamports.toQ) with
        | error msg =>
          simp [runWithdrawLoop, h1, h2b, hresp] at h
          exact ⟨e, by simp, h.2.symm, h.1, h2b⟩
        | ok r =>
          simp [runWithdrawLoop, h1, h2b, hresp] at h
          rcases h with ⟨hamt, haddr⟩ | h
          · exact ⟨e, by simp, haddr.symm, hamt, h2b⟩
          · rcases ih (idx + 1) amt addr h with ⟨x, hx, hprop⟩
            exact ⟨x, by simp [hx], hprop⟩

/-- C10 (amended): provided the request carries a non-empty rpcUrl and
owner secret, the deposit handler throws before constructing the relay
client (zero relay calls) exactly when the supplied lamports value is
not a finite number greater than zero; when it proceeds, the relay
deposit receives Math.round(lamports), which is an integer and
non-negative but can be zero (amounts strictly between 0 and 0.5 round
to zero); likewise every relay withdraw call carries the non-negative
rounded amount of a validated payout entry. -/
theorem api_validation_and_rounding (relay : Relay) (body : DepositBody)
    (hrpc : body.rpcUrl ≠ "") (howner : body.owner ≠ "") :
    ((handleDepositApi relay body).2 = [] ↔ validateLamports body.lamports = false) ∧
    (validateLamports body.lamports = false →
      handleDepositApi relay body
        = (.error "Deposit lamports must be greater than zero.", [])) ∧
    (validateLamports body.lamports = true →
      (handleDepositApi relay body).2.head? = some RelayCall.clearCache ∧
      RelayCall.deposit (jsRound body.lamports.toQ) ∈ (handleDepositApi relay body).2 ∧
      0 ≤ jsRound body.lamports.toQ) ∧
    (∀ (ps : List Payout) (amt : ℤ) (addr : String),
      RelayCall.withdraw amt addr
        ∈ (handleWithdraw relay
            { rpcUrl := body.rpcUrl, owner := body.owner, payouts := ps }).2 →
      0 ≤ amt ∧ ∃ e ∈ ps, e.address = addr ∧ amt = jsRound e.lamports.toQ) := by
  have hcred : missingCreds body.rpcUrl body.owner = false := by
    simp [missingCreds, hrpc, howner]
  refine ⟨⟨?_, ?_⟩, ?_, ?_, ?_⟩
  · intro h
    cases hv : validateLamports body.lamports
    · rfl
    · exfalso
      cases hdep : relay.depositResp (jsRound body.lamports.toQ) with
      | error e => simp [handleDepositApi, hv, hcred, hdep] at h
      | ok r =>
        cases hbal : relay.balanceResp <;>
          simp [handleDepositApi, hv, hcred, hdep, hbal] at h
  · intro h
    simp [handleDepositApi, h]
  · intro h
    simp [handleDepositApi, h]
  · intro h
    have h0 : 0 ≤ jsRound body.lamports.toQ :=
      jsRound_nonneg (validateLamports_toQ_pos h)
    cases hdep : relay.depositResp (jsRound body.lamports.toQ) with
    | error e =>
      exact ⟨by simp [handleDepositApi, h, hcred, hdep],
             by simp [handleDepositApi, h, hcred, hdep], h0⟩
    | ok r =>
      cases hbal : relay.balanceResp with
      | error e =>
        exact ⟨by simp [handleDepositApi, h, hcred, hdep, hbal],
               by simp [handleDepositApi, h, hcred, hdep, hbal], h0⟩
      | ok b =>
        exact ⟨by simp [handleDepositApi, h, hcred, hdep, hbal],
               by simp [handleDepositApi, h, hcred, hdep, hbal], h0⟩
  · intro ps amt addr hmem
    have hloopmem : RelayCall.withdraw amt addr ∈ (runWithdrawLoop relay 0 ps).2 := by
      by_cases hemp : ps.isEmpty = true
      · simp [handleWithdraw, hemp] at hmem
      · cases hres : (runWithdrawLoop relay 0 ps).1 with
        | error e =>
          simp [handleWithdraw, hemp, hcred, hres] at hmem
          exact hmem
        | ok items =>
          cases hbal : relay.balanceResp with
          | error e =>
            simp [handleWithdraw, hemp, hcred, hres, hbal] at hmem
            exact hmem
          | ok b =>
            simp [handleWithdraw, hemp, hcred, hres, hbal] at hmem
            exact hmem
    rcases runWithdrawLoop_withdraw_mem relay ps 0 amt addr hloopmem with
      ⟨e, he, haddr, hamt, hval⟩
    refine ⟨?_, e, he, haddr, hamt⟩
    rw [hamt]
    exact jsRound_nonneg (validateLamports_toQ_pos hval)

/-- C10 counterexample: with valid lamports but an empty rpcUrl the
handler still throws before any relay call, so the throw-iff-invalid
biconditional fails as stated; and a lamports value of 0.3 passes
validation yet Math.round sends 0 — a non-positive amount — to the
relay deposit primitive. -/
theorem api_validation_gate_counterexample :
    (validateLamports (JsVal.num 5) = true ∧
     handleDepositApi relayOk { rpcUrl := "", owner := "o", lamports := JsVal.num 5 }
       = (.error "Missing rpcUrl or owner secret.", [])) ∧
    (validateLamports (JsVal.num (mkRat 3 10)) = true ∧
     (handleDepositApi relayOk
        { rpcUrl := "r", owner := "o", lamports := JsVal.num (mkRat 3 10) }).2
       = [RelayCall.clearCache, RelayCall.deposit 0, RelayCall.getPrivateBalance]) := by
  decide

/-- Witness for C10: a valid 5-lamport deposit proceeds past the client
construction, starts with the session reset, and the relay deposit call
carries the rounded amount 5. -/
theorem api_validation_witness :
    (handleDepositApi relayOk { rpcUrl := "r", owner := "o", lamports := JsVal.num 5 }).2.head?
      = some RelayCall.clearCache ∧
    RelayCall.deposit 5
      ∈ (handleDepositApi relayOk { rpcUrl := "r", owner := "o", lamports := JsVal.num 5 }).2 := by
  obtain ⟨-, -, h3, -⟩ := api_validation_and_rounding relayOk
    { rpcUrl := "r", owner := "o", lamports := JsVal.num 5 } (by decide) (by decide)
  obtain ⟨hh, hd, -⟩ := h3 (by decide)
  have hj : jsRound (JsVal.num 5).toQ = 5 := by decide
  rw [hj] at hd
  exact ⟨hh, hd⟩
